/-
Verification of the SleepSense firmware (ES_CW1 repository).

Shallow embedding of the pure cores of the firmware modules:
  * firmware/processing/sleep_detector.py  (occupancy state machine)
  * firmware/main.py                       (event-triggered recording controller)
  * firmware/data/data_manager.py          (retry / overflow-queue storage, SQLite model)
  * firmware/sensors/fsr408.py             (force percentage, broken-sensor fallback)
  * firmware/sensors/ads1115.py            (register decode, config packing, read_raw)

Python floats are modelled as rationals (ℚ); wall-clock instants are passed
explicitly as rationals.  Fallible operations are modelled with Except/Option,
with the outcome of each external (I2C / SQLite) interaction supplied as an
explicit environment argument.
-/
import Mathlib

set_option linter.unusedVariables false

/-! ## Sleep state machine (firmware/processing/sleep_detector.py) -/

/-- The `SleepState` enumeration from sleep_detector.py. -/
inductive SleepState where
  | EMPTY
  | AWAKE
  | ASLEEP
  | MOVING
deriving DecidableEq, Repr

/-- Mutable state of `SleepDetector` that `update` reads and writes:
`current_state`, `last_move_time`, `state_start_time`. -/
structure DetectorState where
  currentState : SleepState
  lastMoveTime : ℚ
  stateStartTime : ℚ
deriving DecidableEq, Repr

/-- The three thresholds read from the configuration dictionary in
`SleepDetector.__init__`. -/
structure DetectorConfig where
  emptyThreshold : ℚ
  movementThreshold : ℚ
  sleepDelay : ℚ
deriving DecidableEq, Repr

/-- `SleepDetector.update(voltage, variance)` (sleep_detector.py lines 66-112).
`now` is the value `time.time()` returns during the call.  Computes the new
state by the logic tree, resets `last_move_time` in the EMPTY and MOVING
branches, and resets `state_start_time` on a state change. -/
def SleepDetector.update (cfg : DetectorConfig) (s : DetectorState)
    (voltage variance now : ℚ) : DetectorState :=
  let res : SleepState × ℚ :=
    if voltage < cfg.emptyThreshold then
      (SleepState.EMPTY, now)
    else if variance > cfg.movementThreshold then
      (SleepState.MOVING, now)
    else if now - s.lastMoveTime > cfg.sleepDelay then
      (SleepState.ASLEEP, s.lastMoveTime)
    else
      (SleepState.AWAKE, s.lastMoveTime)
  let newState := res.1
  let stateStart := if newState ≠ s.currentState then now else s.stateStartTime
  { currentState := newState, lastMoveTime := res.2, stateStartTime := stateStart }

/-- Feed a list of timed samples `(voltage, variance, now)` through
`SleepDetector.update`, returning the list of states it returns. -/
def SleepDetector.run (cfg : DetectorConfig) (s : DetectorState) :
    List (ℚ × ℚ × ℚ) → List SleepState
  | [] => []
  | (v, var, t) :: rest =>
      let s' := SleepDetector.update cfg s v var t
      s'.currentState :: SleepDetector.run cfg s' rest

/-! ## Force percentage (firmware/sensors/fsr408.py, get_force_percentage) -/

/-- Pure core of `FSR408.get_force_percentage` (fsr408.py lines 456-476) as a
function of the voltage reading and the calibration values it uses. -/
def getForcePercentage (voltage baselineVoltage occupiedThreshold : ℚ) : ℚ :=
  let voltageRange := occupiedThreshold - baselineVoltage
  if voltageRange ≤ 0 then 0
  else
    let percentage := (voltage - baselineVoltage) / voltageRange * 100
    max 0 (min 100 percentage)

/-! ## ADS1115 config packing (firmware/sensors/ads1115.py, _build_config) -/

/-- Config register bit positions (ads1115.py lines 36-44). -/
def CONFIG_OS : Nat := 15
def CONFIG_MUX : Nat := 12
def CONFIG_PGA : Nat := 9
def CONFIG_MODE : Nat := 8
def CONFIG_DR : Nat := 5
def CONFIG_COMP_QUE : Nat := 0

/-- Configuration field values for the FSR408 (ads1115.py lines 47-50). -/
def PGA_4_096V : Nat := 0x01
def MODE_SINGLE : Nat := 0x01
def DR_128SPS : Nat := 0x04

/-- `ADS1115._build_config(channel, continuous)` (ads1115.py lines 180-214), a
pure function of its arguments. -/
def ADS1115.buildConfig (channel : Nat) (continuous : Bool) : Nat :=
  let config := 1 <<< CONFIG_OS
  let mux := 0x04 ||| (channel &&& 0x03)
  let config := config ||| (mux <<< CONFIG_MUX)
  let config := config ||| (PGA_4_096V <<< CONFIG_PGA)
  let config :=
    if continuous then config ||| (0 <<< CONFIG_MODE)
    else config ||| (MODE_SINGLE <<< CONFIG_MODE)
  let config := config ||| (DR_128SPS <<< CONFIG_DR)
  config ||| (0x03 <<< CONFIG_COMP_QUE)

/-! ## ADS1115 register decode (firmware/sensors/ads1115.py, _read_register) -/

/-- The byte-combination and sign-reinterpretation step of
`ADS1115._read_register` (ads1115.py lines 161-168): combine the two bytes
read from the bus as `(high << 8) | low` and subtract 65536 when bit 15 of
the combined value is set. -/
def ADS1115.readRegisterDecode (highByte lowByte : Nat) : Int :=
  let value := (highByte <<< 8) ||| lowByte
  if value &&& 0x8000 ≠ 0 then (value : Int) - 65536 else (value : Int)

/-! ## ADS1115 read_raw error handling (firmware/sensors/ads1115.py, read_raw) -/

/-- Kinds of Python exceptions relevant to `read_raw`'s handlers: an
`ADS1115Error` (raised by `_write_register` / `_read_register` after their
local retries are exhausted) versus any other unexpected exception. -/
inductive PyExn where
  | adsError
  | otherExn
deriving DecidableEq, Repr

/-- Outcomes of the three external interactions performed by the body of
`ADS1115.read_raw` (ads1115.py lines 238-262): the config write that starts
the conversion, the polling reads of the config register, and the final read
of the conversion register.  `none` / `Except.ok` means the interaction
finished without raising; for the polling phase this includes the case where
the timeout elapsed without the OS bit being seen (the loop then simply
exits and the conversion register is read anyway). -/
structure ReadRawEnv where
  writeConfig : Option PyExn
  pollConfig : Option PyExn
  readConversion : Except PyExn Int
deriving Repr

/-- The `try`-block of `read_raw`: write config, poll, read conversion;
the first exception raised aborts the sequence. -/
def ADS1115.readRawBody (env : ReadRawEnv) : Except PyExn Int :=
  match env.writeConfig with
  | some e => Except.error e
  | none =>
      match env.pollConfig with
      | some e => Except.error e
      | none => env.readConversion

/-- `ADS1115.read_raw` (ads1115.py lines 216-269), with hardware interaction
outcomes supplied by `env` and the current `_last_value` by `lastValue`.
Returns the call's outcome (a value, or a propagated exception) together with
the new `_last_value`.  Mirrors the handlers: `except ADS1115Error: raise`
re-raises, `except Exception:` returns the last known good value. -/
def ADS1115.readRaw (env : ReadRawEnv) (lastValue : Int) :
    Except PyExn Int × Int :=
  match ADS1115.readRawBody env with
  | Except.ok v => (Except.ok v, v)
  | Except.error PyExn.adsError => (Except.error PyExn.adsError, lastValue)
  | Except.error PyExn.otherExn => (Except.ok lastValue, lastValue)

/-! ## Broken-sensor fallback (firmware/sensors/fsr408.py, _check_for_broken_sensor) -/

/-- The part of the `FSR408` state read and written by
`_check_for_broken_sensor`: `simulation_mode` and `_zero_reading_count`. -/
structure FSRState where
  simulationMode : Bool
  zeroReadingCount : Nat
deriving DecidableEq, Repr

/-- `FSR408._check_for_broken_sensor(voltage)` (fsr408.py lines 107-129):
returns immediately when already in simulation mode; otherwise increments the
consecutive-zero counter when `voltage < 0.01` and resets it to 0 otherwise;
enables simulation mode once the counter reaches 10. -/
def FSR408.checkForBrokenSensor (s : FSRState) (voltage : ℚ) : FSRState :=
  if s.simulationMode then s
  else
    let zc := if voltage < 0.01 then s.zeroReadingCount + 1 else 0
    if zc ≥ 10 then { simulationMode := true, zeroReadingCount := zc }
    else { simulationMode := false, zeroReadingCount := zc }

/-- Feed a list of voltage readings through `_check_for_broken_sensor`. -/
def FSR408.checkRun (s : FSRState) (vs : List ℚ) : FSRState :=
  vs.foldl FSR408.checkForBrokenSensor s

/-! ## Event-triggered recording controller (firmware/main.py, main_loop) -/

/-- One sample tuple `(voltage, force_pct, state_val, variance)` as buffered
and stored by the main loop. -/
structure Sample where
  voltage : ℚ
  forcePct : ℚ
  stateVal : String
  variance : ℚ
deriving DecidableEq, Repr

/-- Append to a `deque(maxlen=n)`: the new element is appended and, when the
deque is full, the oldest element is dropped. -/
def pushRing (n : Nat) (buf : List Sample) (x : Sample) : List Sample :=
  (buf ++ [x]).drop ((buf.length + 1) - n)

/-- State of the Variance-Based Event Logging machine in `main_loop`
(main.py lines 263-268): the pre-roll buffer (`deque(maxlen=5)`), the
recording flag, the post-roll counter, and — as the observable effect — the
chronological list of samples persisted through
`data_mgr.store_reading`. -/
structure RecState where
  buffer : List Sample
  isRecording : Bool
  postRoll : Int
  stored : List Sample
deriving DecidableEq, Repr

/-- `POST_ROLL_SAMPLES` (main.py line 268). -/
def POST_ROLL_SAMPLES : Int := 5

/-- One iteration of the event-logging logic of `main_loop` (main.py lines
285-322) on a sample `x`, with movement threshold `mt`:
on `variance > mt` flush the pre-roll buffer first when not yet recording,
set `is_recording`, store the sample and reset the post-roll counter; on an
idle sample, store and decrement the counter while recording (clearing
`is_recording` when it reaches 0), otherwise just buffer the sample. -/
def recStep (mt : ℚ) (s : RecState) (x : Sample) : RecState :=
  if x.variance > mt then
    let stored₁ := if s.isRecording then s.stored else s.stored ++ s.buffer
    { s with isRecording := true, postRoll := POST_ROLL_SAMPLES,
             stored := stored₁ ++ [x] }
  else
    if s.isRecording then
      let pr := s.postRoll - 1
      { s with isRecording := decide (0 < pr), postRoll := pr,
               stored := s.stored ++ [x] }
    else
      { s with buffer := pushRing 5 s.buffer x }

/-- Feed a list of samples through `recStep`. -/
def recRun (mt : ℚ) (s : RecState) (xs : List Sample) : RecState :=
  xs.foldl (recStep mt) s

/-! ## DataManager retry and overflow queue (firmware/data/data_manager.py) -/

/-- Exceptions distinguished by `_execute_with_retry`: a "database is locked"
`sqlite3.OperationalError` (retried with backoff), any other exception
(re-raised at once), and the `DataManagerError` raised after the retry loop
(unreachable for a positive retry count). -/
inductive DBErr where
  | locked
  | otherErr
  | maxRetriesExceeded
deriving DecidableEq, Repr

/-- `MAX_QUEUE_SIZE` (data_manager.py line 47). -/
def MAX_QUEUE_SIZE : Nat := 1000

/-- `CLEANUP_INTERVAL` (data_manager.py line 44). -/
def CLEANUP_INTERVAL : Nat := 100

/-- A row of the `readings` table as written by `store_reading`. -/
structure Record where
  voltage : ℚ
  forcePercent : ℚ
  state : String
  variance : ℚ
deriving DecidableEq, Repr

/-- State of `DataManager` visible to `store_reading`: the durable SQLite
`readings` rows (in insertion order), the in-memory overflow queue
`_memory_queue`, and `_insert_count`. -/
structure DMState where
  db : List Record
  queue : List Record
  insertCount : Nat
deriving DecidableEq, Repr

/-- Retry loop of `DataManager._execute_with_retry` (data_manager.py lines
137-148).  `op i` is the outcome of the `i`-th invocation of the operation.
A locked error before the last attempt sleeps `0.1 * (attempt + 1)` seconds
(timing not modelled) and retries; on the last attempt it is re-raised; any
other exception propagates at once. -/
def retryLoop (op : Nat → Except DBErr Unit) (maxRetries : Nat) :
    Nat → Nat → Except DBErr Unit
  | 0, _ => Except.error DBErr.maxRetriesExceeded
  | fuel + 1, attempt =>
      match op attempt with
      | Except.ok a => Except.ok a
      | Except.error DBErr.locked =>
          if attempt < maxRetries - 1 then retryLoop op maxRetries fuel (attempt + 1)
          else Except.error DBErr.locked
      | Except.error e => Except.error e

/-- `DataManager._execute_with_retry(operation, max_retries=3)`
(data_manager.py lines 126-148). -/
def executeWithRetry (op : Nat → Except DBErr Unit) (maxRetries : Nat := 3) :
    Except DBErr Unit :=
  retryLoop op maxRetries maxRetries 0

/-- `DataManager.store_reading` (data_manager.py lines 150-204).
`insertOp i` is the outcome of the `i`-th attempt of the `_insert` closure;
`flushOk` tells whether a flush of the memory queue (attempted only on a
successful insert with a non-empty queue) commits; `keep` is the retention
predicate of `cleanup_old_data` (a record is deleted when older than 30
days).  Returns the boolean result of the call and the new state. -/
def storeReading (insertOp : Nat → Except DBErr Unit) (flushOk : Bool)
    (keep : Record → Bool) (s : DMState) (r : Record) : Bool × DMState :=
  match executeWithRetry insertOp 3 with
  | Except.ok _ =>
      let db₁ := s.db ++ [r]
      let cnt₁ := s.insertCount + 1
      let res₁ : List Record × Nat :=
        if cnt₁ ≥ CLEANUP_INTERVAL then (db₁.filter keep, 0) else (db₁, cnt₁)
      let res₂ : List Record × List Record :=
        if s.queue ≠ [] then
          if flushOk then (res₁.1 ++ s.queue, []) else (res₁.1, s.queue)
        else (res₁.1, s.queue)
      (true, { db := res₂.1, queue := res₂.2, insertCount := res₁.2 })
  | Except.error _ =>
      if s.queue.length < MAX_QUEUE_SIZE then
        (false, { s with queue := s.queue ++ [r] })
      else
        (false, s)

/-- Run `store_reading` over a list of records, each call with its own
insert-attempt outcomes, collecting the returned booleans. -/
def storeRun (flushOk : Bool) (keep : Record → Bool) (s : DMState) :
    List (Record × (Nat → Except DBErr Unit)) → List Bool × DMState
  | [] => ([], s)
  | (r, op) :: rest =>
      let (b, s') := storeReading op flushOk keep s r
      let (bs, s'') := storeRun flushOk keep s' rest
      (b :: bs, s'')

/-! ## SQLite readings table (data_manager.py, get_unsynced_readings) -/

/-- Byte-wise (memcmp) less-or-equal on character sequences: how SQLite's
default BINARY collation compares TEXT values.  The timestamp texts the
table stores are pure ASCII, so byte order and character order coincide. -/
def bytesLe : List Char → List Char → Bool
  | [], _ => true
  | _ :: _, [] => false
  | a :: as, b :: bs =>
      if a.val < b.val then true
      else if b.val < a.val then false
      else bytesLe as bs

/-- The comparison `ORDER BY timestamp ASC` applies to the stored TEXT. -/
def tsLe (a b : String) : Bool := bytesLe a.data b.data

/-- A persisted row of the `readings` table: the AUTOINCREMENT `id`, the
TEXT stored in the DATETIME `timestamp` column exactly as written — the
direct insert of `store_reading` lets SQLite fill `CURRENT_TIMESTAMP`
("YYYY-MM-DD HH:MM:SS", second resolution), while `_flush_memory_queue`
(data_manager.py lines 196-220) writes the `datetime.now().isoformat()`
text recorded when the record was queued ("YYYY-MM-DDTHH:MM:SS.ffffff") —
the `synced` flag, and the sensor payload. -/
structure Reading where
  id : Nat
  timestamp : String
  synced : Bool
  payload : Record
deriving DecidableEq, Repr

/-- The `readings` table: rows in rowid (insertion) order and the next
AUTOINCREMENT id. -/
structure ReadingsDB where
  rows : List Reading
  nextId : Nat
deriving DecidableEq, Repr

/-- The freshly initialised database (`_init_db`): empty table, ids from 1. -/
def ReadingsDB.empty : ReadingsDB :=
  { rows := [], nextId := 1 }

/-- The durable effect of one INSERT with `synced = 0`: performed by the
direct path of `store_reading` (data_manager.py lines 166-175, `ts` the
`CURRENT_TIMESTAMP` text SQLite fills in) and by each iteration of
`_flush_memory_queue` (lines 214-220, `ts` the isoformat text queued with
the record). -/
def ReadingsDB.insertRow (db : ReadingsDB) (ts : String) (r : Record) : ReadingsDB :=
  { rows := db.rows ++ [{ id := db.nextId, timestamp := ts,
                          synced := false, payload := r }],
    nextId := db.nextId + 1 }

/-- `DataManager.mark_synced(ids)` (data_manager.py lines 262-290):
`UPDATE readings SET synced = 1 WHERE id IN (...)`. -/
def ReadingsDB.markSynced (db : ReadingsDB) (ids : List Nat) : ReadingsDB :=
  { db with rows := db.rows.map fun r =>
      if r.id ∈ ids then { r with synced := true } else r }

/-- `DataManager.get_unsynced_readings(limit)` (data_manager.py lines
229-260): `SELECT ... WHERE synced = 0 ORDER BY timestamp ASC LIMIT ?`.
The `ORDER BY` is embedded as a sort of the filtered rows by the BINARY
comparison of the stored timestamp TEXT. -/
def ReadingsDB.getUnsyncedReadings (db : ReadingsDB) (limit : Nat) : List Reading :=
  (List.insertionSort (fun a b => tsLe a.timestamp b.timestamp = true)
    (db.rows.filter fun r => r.synced = false)).take limit

/-- Database states reachable from a fresh database by `store_reading` — its
direct inserts and its memory-queue flush inserts, each with whatever
timestamp text that code path writes — and by `mark_synced`. -/
inductive ReadingsDB.Reachable : ReadingsDB → Prop where
  | init : ReadingsDB.Reachable ReadingsDB.empty
  | insert {db : ReadingsDB} (ts : String) (r : Record) :
      ReadingsDB.Reachable db → ReadingsDB.Reachable (db.insertRow ts r)
  | mark {db : ReadingsDB} (ids : List Nat) :
      ReadingsDB.Reachable db → ReadingsDB.Reachable (db.markSynced ids)

/-- A readings-table trace the source produces (all inserts issued by
`store_reading`): at 14:30:00 a `store_reading` fails and queues its record,
stamping it `"2026-02-03T14:30:00.123456"` (isoformat); at 14:30:01 a
`store_reading` succeeds — its own row (id 1, `CURRENT_TIMESTAMP` text
`"2026-02-03 14:30:01"`) is inserted first, then `_flush_memory_queue`
inserts the queued record (id 2) with its isoformat text; at 14:30:05
another `store_reading` succeeds (id 3, `"2026-02-03 14:30:05"`). -/
def flushTraceDB : ReadingsDB :=
  ((ReadingsDB.empty.insertRow "2026-02-03 14:30:01" ⟨2, 60, "B", 0⟩).insertRow
      "2026-02-03T14:30:00.123456" ⟨1, 50, "A", 0⟩).insertRow
    "2026-02-03 14:30:05" ⟨3, 70, "C", 0⟩

/-! ## Helper lemmas -/

theorem lor_shifted_eq_add (n a b : Nat) (hb : b < 2 ^ n) :
    a * 2 ^ n ||| b = a * 2 ^ n + b := by
  induction n generalizing b with
  | zero =>
    interval_cases b
    simp
  | succ n ih =>
    have hx2 : a * 2 ^ (n + 1) = (a * 2 ^ n) * 2 := by ring
    have hdiv : (a * 2 ^ (n + 1) ||| b) / 2 = a * 2 ^ n ||| b / 2 := by
      rw [Nat.or_div_two, hx2, Nat.mul_div_cancel _ (by norm_num)]
    have hb2 : b / 2 < 2 ^ n := by omega
    have hmod : (a * 2 ^ (n + 1) ||| b) % 2 = b % 2 := by
      have hxmod : (a * 2 ^ (n + 1)) % 2 = 0 := by
        rw [hx2]
        exact Nat.mul_mod_left _ 2
      rcases Nat.mod_two_eq_zero_or_one b with hb0 | hb1
      · have : ¬ ((a * 2 ^ (n + 1) ||| b) % 2 = 1) := by
          rw [Nat.or_mod_two_eq_one]
          omega
        omega
      · have : (a * 2 ^ (n + 1) ||| b) % 2 = 1 := by
          rw [Nat.or_mod_two_eq_one]
          omega
        omega
    have hrec := ih (b / 2) hb2
    have hdm := Nat.div_add_mod (a * 2 ^ (n + 1) ||| b) 2
    rw [hdiv, hrec, hmod] at hdm
    have hbdm := Nat.div_add_mod b 2
    have : 2 ^ (n + 1) = 2 ^ n * 2 := by ring
    omega

theorem combine_bytes_eq (highByte lowByte : Nat) (hlo : lowByte < 256) :
    (highByte <<< 8) ||| lowByte = 256 * highByte + lowByte := by
  rw [Nat.shiftLeft_eq]
  have := lor_shifted_eq_add 8 highByte lowByte (by norm_num [hlo])
  norm_num at this ⊢
  omega

theorem and_bit15_ne_zero_iff (v : Nat) (hv : v < 65536) :
    v &&& 0x8000 ≠ 0 ↔ 0x8000 ≤ v := by
  have h15 : (0x8000 : Nat) = 2 ^ 15 := by norm_num
  rw [h15, Nat.and_two_pow, Nat.testBit_to_div_mod]
  have hle : v / 2 ^ 15 = 0 ∨ v / 2 ^ 15 = 1 := by omega
  rcases hle with h | h <;> rw [h] <;> simp <;> omega

theorem checkRun_sim_preserved (vs : List ℚ) (s : FSRState)
    (h : s.simulationMode = true) :
    (FSR408.checkRun s vs).simulationMode = true := by
  induction vs generalizing s with
  | nil => exact h
  | cons v rest ih =>
    have hstep : FSR408.checkForBrokenSensor s v = s := by
      simp [FSR408.checkForBrokenSensor, h]
    simp only [FSR408.checkRun, List.foldl_cons, hstep]
    exact ih s h

theorem checkRun_zero_streak (vs : List ℚ) (s : FSRState)
    (hzero : ∀ x ∈ vs, x < 0.01) (hlen : 10 ≤ s.zeroReadingCount + vs.length)
    (hne : vs ≠ []) :
    (FSR408.checkRun s vs).simulationMode = true := by
  induction vs generalizing s with
  | nil => exact absurd rfl hne
  | cons v rest ih =>
    by_cases hsim : s.simulationMode
    · exact checkRun_sim_preserved _ s hsim
    · have hv : v < 0.01 := hzero v (List.mem_cons_self v rest)
      have hstep : FSR408.checkForBrokenSensor s v =
          if s.zeroReadingCount + 1 ≥ 10 then
            { simulationMode := true, zeroReadingCount := s.zeroReadingCount + 1 }
          else { simulationMode := false, zeroReadingCount := s.zeroReadingCount + 1 } := by
        simp [FSR408.checkForBrokenSensor, hsim, hv]
      simp only [FSR408.checkRun, List.foldl_cons, hstep]
      by_cases hc : s.zeroReadingCount + 1 ≥ 10
      · rw [if_pos hc]
        exact checkRun_sim_preserved rest _ rfl
      · rw [if_neg hc]
        have hrest : rest ≠ [] := by
          intro hr
          subst hr
          simp at hlen
          omega
        exact ih _ (fun x hx => hzero x (List.mem_cons_of_mem _ hx))
          (by simp at hlen ⊢; omega) hrest

theorem recRun_postRoll (mt : ℚ) (xs : List Sample) (s : RecState)
    (hrec : s.isRecording = true) (hpos : 0 < s.postRoll)
    (hlen : (xs.length : Int) ≤ s.postRoll)
    (hidle : ∀ x ∈ xs, ¬ x.variance > mt) :
    recRun mt s xs =
      { s with stored := s.stored ++ xs,
               postRoll := s.postRoll - xs.length,
               isRecording := decide (0 < s.postRoll - (xs.length : Int)) } := by
  induction xs generalizing s with
  | nil =>
    simp only [recRun, List.foldl_nil, List.append_nil, List.length_nil,
      Nat.cast_zero, sub_zero]
    cases s with
    | mk b ir pr st =>
      simp only at hrec hpos
      simp [hrec, hpos]
  | cons x rest ih =>
    have hx : ¬ x.variance > mt := hidle x (List.mem_cons_self x rest)
    have hstep : recStep mt s x =
        { s with isRecording := decide (0 < s.postRoll - 1),
                 postRoll := s.postRoll - 1,
                 stored := s.stored ++ [x] } := by
      simp [recStep, hx, hrec]
    simp only [recRun, List.foldl_cons, hstep]
    by_cases hpr : 0 < s.postRoll - 1
    · have hrw := ih ⟨s.buffer, decide (0 < s.postRoll - 1), s.postRoll - 1, s.stored ++ [x]⟩
        (by simp [hpr]) (by simpa using hpr)
        (by simp only [List.length_cons] at hlen; push_cast at hlen ⊢; omega)
        (fun y hy => hidle y (List.mem_cons_of_mem _ hy))
      simp only [recRun] at hrw
      rw [hrw]
      simp only [List.length_cons, List.append_assoc, List.singleton_append]
      push_cast
      have h1 : s.postRoll - 1 - (rest.length : Int) = s.postRoll - ((rest.length : Int) + 1) := by
        ring
      rw [h1]
    · have hone : s.postRoll = 1 := by omega
      have hrest : rest = [] := by
        cases rest with
        | nil => rfl
        | cons y ys =>
          simp only [List.length_cons] at hlen
          push_cast at hlen
          omega
      subst hrest
      simp only [recRun, List.foldl_nil, List.length_cons, List.length_nil]
      cases s with
      | mk b ir pr st =>
        simp only at hone
        subst hone
        simp

theorem storeRun_failures (flushOk : Bool) (keep : Record → Bool)
    (items : List (Record × (Nat → Except DBErr Unit))) (s : DMState)
    (hfail : ∀ p ∈ items, ∃ e, executeWithRetry p.2 3 = Except.error e)
    (hcap : s.queue.length + items.length ≤ MAX_QUEUE_SIZE) :
    storeRun flushOk keep s items =
      (List.replicate items.length false,
       { s with queue := s.queue ++ items.map Prod.fst }) := by
  induction items generalizing s with
  | nil =>
    simp [storeRun]
  | cons p rest ih =>
    obtain ⟨r₁, op₁⟩ := p
    obtain ⟨e, he⟩ := hfail (r₁, op₁) (List.mem_cons_self _ _)
    have hq : s.queue.length < MAX_QUEUE_SIZE := by
      simp only [List.length_cons] at hcap
      omega
    have hstep : storeReading op₁ flushOk keep s r₁ =
        (false, { s with queue := s.queue ++ [r₁] }) := by
      simp [storeReading, he, hq]
    have ihr := ih { s with queue := s.queue ++ [r₁] }
      (fun p hp => hfail p (List.mem_cons_of_mem _ hp))
      (by simp only [List.length_append, List.length_cons] at hcap ⊢; simp; omega)
    simp only [storeRun, hstep, ihr, List.length_cons, List.replicate_succ,
      List.map_cons, List.append_assoc, List.singleton_append]

/-! ## Claim theorems -/

/-- C1: every `SleepDetector.update` with inputs (voltage, variance) at time
`now` returns EMPTY when `voltage < empty_threshold`, otherwise MOVING when
`variance > movement_threshold`, otherwise ASLEEP when
`now - last_move_time > sleep_delay` and AWAKE otherwise, with
`last_move_time` reset to `now` exactly in the first two cases; with
`empty_threshold=1, movement_threshold=0.05, sleep_delay=3`, the sample
sequence (0.5,0.01), (2.5,0.08), (2.5,0.02), then after more than 3 seconds
(2.5,0.02), then (2.5,0.10), then (0.6,0.01) yields exactly
EMPTY, MOVING, AWAKE, ASLEEP, MOVING, EMPTY. -/
theorem claim_sleepDetector_update (cfg : DetectorConfig) (s : DetectorState)
    (voltage variance now : ℚ) :
    ((SleepDetector.update cfg s voltage variance now).currentState =
      if voltage < cfg.emptyThreshold then SleepState.EMPTY
      else if variance > cfg.movementThreshold then SleepState.MOVING
      else if now - s.lastMoveTime > cfg.sleepDelay then SleepState.ASLEEP
      else SleepState.AWAKE)
    ∧ ((SleepDetector.update cfg s voltage variance now).lastMoveTime =
      if voltage < cfg.emptyThreshold then now
      else if variance > cfg.movementThreshold then now
      else s.lastMoveTime)
    ∧ SleepDetector.run ⟨1, 0.05, 3⟩ ⟨SleepState.EMPTY, 0, 0⟩
        [(0.5, 0.01, 1), (2.5, 0.08, 2), (2.5, 0.02, 3), (2.5, 0.02, 7),
         (2.5, 0.10, 8), (0.6, 0.01, 9)] =
        [SleepState.EMPTY, SleepState.MOVING, SleepState.AWAKE,
         SleepState.ASLEEP, SleepState.MOVING, SleepState.EMPTY] := by
  refine ⟨?_, ?_, ?_⟩
  · simp only [SleepDetector.update]
    split_ifs <;> rfl
  · simp only [SleepDetector.update]
    split_ifs <;> rfl
  · norm_num [SleepDetector.run, SleepDetector.update]

/-- C4: `get_force_percentage` returns
`clamp(0, 100, (voltage - baseline) / (occupied - baseline) * 100)`, returns 0
whenever the denominator is non-positive, is 0 at the baseline voltage, 100 at
the occupied threshold, 50 at the midpoint, and always lies in [0, 100]. -/
theorem claim_getForcePercentage (v b o : ℚ) :
    (o - b ≤ 0 → getForcePercentage v b o = 0)
    ∧ (0 < o - b →
        getForcePercentage v b o = max 0 (min 100 ((v - b) / (o - b) * 100)))
    ∧ 0 ≤ getForcePercentage v b o
    ∧ getForcePercentage v b o ≤ 100
    ∧ getForcePercentage b b o = 0
    ∧ (b < o →
        getForcePercentage o b o = 100 ∧ getForcePercentage ((b + o) / 2) b o = 50) := by
  refine ⟨?_, ?_, ?_, ?_, ?_, ?_⟩
  · intro h
    simp only [getForcePercentage, if_pos h]
  · intro h
    simp only [getForcePercentage, if_neg (by linarith : ¬ (o - b ≤ 0))]
  · simp only [getForcePercentage]
    split_ifs
    · norm_num
    · positivity
  · simp only [getForcePercentage]
    split_ifs with h
    · norm_num
    · refine max_le (by norm_num) (le_trans (min_le_left _ _) (by norm_num))
  · simp only [getForcePercentage]
    split_ifs with h
    · rfl
    · norm_num
  · intro h
    have hne : o - b ≠ 0 := by linarith
    have hgt : ¬ (o - b ≤ 0) := by linarith
    constructor
    · simp only [getForcePercentage, if_neg hgt]
      rw [div_self hne]
      norm_num
    · simp only [getForcePercentage, if_neg hgt]
      have hmid : ((b + o) / 2 - b) / (o - b) * 100 = 50 := by
        field_simp
        ring
      rw [hmid]
      norm_num

/-- C4 witness at the calibration baseline 0 V, occupied 2 V: midpoint 1 V
gives 50, occupied 2 V gives 100, and a non-positive range gives 0. -/
theorem claim_getForcePercentage_witness :
    getForcePercentage 7 2 1 = 0
    ∧ getForcePercentage 0 0 2 = 0
    ∧ getForcePercentage 2 0 2 = 100
    ∧ getForcePercentage 1 0 2 = 50 := by
  have hmid := ((claim_getForcePercentage 0 0 2).2.2.2.2.2 (by norm_num)).2
  norm_num at hmid
  exact ⟨(claim_getForcePercentage 7 2 1).1 (by norm_num),
         (claim_getForcePercentage 0 0 2).2.2.2.2.1,
         ((claim_getForcePercentage 0 0 2).2.2.2.2.2 (by norm_num)).1,
         hmid⟩

/-- C9: `_build_config(channel=0, continuous=False)` sets the OS
(start-conversion) bit at position 15, puts the single-ended multiplexer code
0b100 for channel 0 in bits 14-12, sets the single-shot MODE bit at position
8, and fits in 16 bits; `ADS1115.buildConfig` is a pure function of its
arguments (it performs no I/O). -/
theorem claim_buildConfig :
    ((ADS1115.buildConfig 0 false >>> 15) &&& 1 = 1)
    ∧ ((ADS1115.buildConfig 0 false >>> 12) &&& 0x7 = 0x4)
    ∧ ((ADS1115.buildConfig 0 false >>> 8) &&& 1 = 1)
    ∧ ADS1115.buildConfig 0 false < 65536 := by
  decide

/-- C5: for every pair of bus bytes, `_read_register` combines them as
`(high << 8) | low` and reinterprets the 16-bit value as signed
two's-complement, subtracting 65536 exactly when the unsigned value is at
least 0x8000; bytes [0xFF, 0xFF] yield -1 and every result lies in
[-32768, 32767]. -/
theorem claim_readRegisterDecode (highByte lowByte : Nat)
    (hhi : highByte < 256) (hlo : lowByte < 256) :
    (ADS1115.readRegisterDecode highByte lowByte =
      if 0x8000 ≤ 256 * highByte + lowByte then (256 * highByte + lowByte : Int) - 65536
      else (256 * highByte + lowByte : Int))
    ∧ -32768 ≤ ADS1115.readRegisterDecode highByte lowByte
    ∧ ADS1115.readRegisterDecode highByte lowByte ≤ 32767
    ∧ ADS1115.readRegisterDecode 0xFF 0xFF = -1 := by
  have hcomb : (highByte <<< 8) ||| lowByte = 256 * highByte + lowByte :=
    combine_bytes_eq highByte lowByte hlo
  have hv : 256 * highByte + lowByte < 65536 := by omega
  have hiff := and_bit15_ne_zero_iff (256 * highByte + lowByte) hv
  refine ⟨?_, ?_, ?_, by decide⟩
  · simp only [ADS1115.readRegisterDecode, hcomb]
    by_cases h : (0x8000 : Nat) ≤ 256 * highByte + lowByte
    · rw [if_pos (hiff.mpr h), if_pos h]
      push_cast
      ring
    · rw [if_neg (fun hne => h (hiff.mp hne)), if_neg h]
      push_cast
      ring
  · simp only [ADS1115.readRegisterDecode, hcomb]
    split_ifs with h
    · have := hiff.mp h
      push_cast
      omega
    · push_cast
      omega
  · simp only [ADS1115.readRegisterDecode, hcomb]
    split_ifs with h
    · push_cast
      omega
    · have hlt : ¬ ((0x8000 : Nat) ≤ 256 * highByte + lowByte) := fun hle => h (hiff.mpr hle)
      push_cast
      omega

/-- C5 witness: bytes [0xFF, 0xFF] decode to -1 and byte pair [0x80, 0x00]
decodes within [-32768, 32767]. -/
theorem claim_readRegisterDecode_witness :
    ADS1115.readRegisterDecode 0xFF 0xFF = -1
    ∧ -32768 ≤ ADS1115.readRegisterDecode 0x80 0x00
    ∧ ADS1115.readRegisterDecode 0x80 0x00 ≤ 32767 := by
  refine ⟨(claim_readRegisterDecode 255 255 (by norm_num) (by norm_num)).2.2.2,
          (claim_readRegisterDecode 128 0 (by norm_num) (by norm_num)).2.1,
          (claim_readRegisterDecode 128 0 (by norm_num) (by norm_num)).2.2.1⟩

/-- C6 counterexample: when the config write raises `ADS1115Error` (the bus
failed on all local retries), `read_raw` does NOT return the last good value
`7`; the `except ADS1115Error: raise` handler re-raises, so the error
propagates to the caller. -/
theorem claim_readRaw_counterexample :
    ADS1115.readRaw ⟨some PyExn.adsError, none, Except.ok 0⟩ 7 ≠ (Except.ok 7, 7)
    ∧ (ADS1115.readRaw ⟨some PyExn.adsError, none, Except.ok 0⟩ 7).1 =
        Except.error PyExn.adsError := by
  constructor
  · intro hcontra
    simp [ADS1115.readRaw, ADS1115.readRawBody] at hcontra
  · rfl

/-- C6 (amended): when the conversion sequence completes (including a poll
that merely times out), `read_raw` returns the conversion value without
raising; an unexpected non-`ADS1115Error` exception makes it return the last
good value without raising; but an `ADS1115Error` (bus failure after local
retries) is re-raised and propagates to the caller. -/
theorem claim_readRaw_amended (env : ReadRawEnv) (lastValue v : Int) :
    (env.writeConfig = none → env.pollConfig = none →
      env.readConversion = Except.ok v →
      ADS1115.readRaw env lastValue = (Except.ok v, v))
    ∧ (ADS1115.readRawBody env = Except.error PyExn.otherExn →
      ADS1115.readRaw env lastValue = (Except.ok lastValue, lastValue))
    ∧ (ADS1115.readRawBody env = Except.error PyExn.adsError →
      ADS1115.readRaw env lastValue = (Except.error PyExn.adsError, lastValue)) := by
  refine ⟨?_, ?_, ?_⟩
  · intro h1 h2 h3
    simp [ADS1115.readRaw, ADS1115.readRawBody, h1, h2, h3]
  · intro h
    simp [ADS1115.readRaw, h]
  · intro h
    simp [ADS1115.readRaw, h]

/-- C6 witness: a clean read returns the fresh conversion value 5; an
unexpected generic exception returns the last good value 7 without raising;
an `ADS1115Error` propagates with `_last_value` untouched. -/
theorem claim_readRaw_amended_witness :
    ADS1115.readRaw ⟨none, none, Except.ok 5⟩ 7 = (Except.ok 5, 5)
    ∧ ADS1115.readRaw ⟨some PyExn.otherExn, none, Except.ok 5⟩ 7 = (Except.ok 7, 7)
    ∧ ADS1115.readRaw ⟨some PyExn.adsError, none, Except.ok 5⟩ 7 =
        (Except.error PyExn.adsError, 7) :=
  ⟨(claim_readRaw_amended ⟨none, none, Except.ok 5⟩ 7 5).1 rfl rfl rfl,
   (claim_readRaw_amended ⟨some PyExn.otherExn, none, Except.ok 5⟩ 7 5).2.1 rfl,
   (claim_readRaw_amended ⟨some PyExn.adsError, none, Except.ok 5⟩ 7 5).2.2 rfl⟩

/-- C8: after 10 consecutive readings below 0.01 V the FSR interface is in
simulation mode; once simulation mode is on, no sequence of later readings
ever leaves it; and a reading of at least 0.01 V (while not yet in
simulation mode) resets the consecutive-zero counter to 0. -/
theorem claim_brokenSensorFallback (s : FSRState) (v : ℚ) (vs : List ℚ) :
    (s.simulationMode = true → (FSR408.checkRun s vs).simulationMode = true)
    ∧ (vs.length = 10 → (∀ x ∈ vs, x < 0.01) →
        (FSR408.checkRun s vs).simulationMode = true)
    ∧ (s.simulationMode = false → ¬ v < 0.01 →
        FSR408.checkForBrokenSensor s v = ⟨false, 0⟩) := by
  refine ⟨fun h => checkRun_sim_preserved vs s h, fun hlen hz => ?_, fun hs hv => ?_⟩
  · refine checkRun_zero_streak vs s hz (by omega) ?_
    intro hnil
    rw [hnil] at hlen
    simp at hlen
  · simp [FSR408.checkForBrokenSensor, hs, hv]

/-- C8 witness: 10 consecutive 0 V readings from a fresh state switch on
simulation mode; a 0.5 V reading at streak 7 resets the counter; simulation
mode survives later healthy readings. -/
theorem claim_brokenSensorFallback_witness :
    (FSR408.checkRun ⟨false, 0⟩ (List.replicate 10 0)).simulationMode = true
    ∧ FSR408.checkForBrokenSensor ⟨false, 7⟩ 0.5 = ⟨false, 0⟩
    ∧ (FSR408.checkRun ⟨true, 10⟩ [0.5, 2.5]).simulationMode = true := by
  refine ⟨(claim_brokenSensorFallback ⟨false, 0⟩ 0 (List.replicate 10 0)).2.1
            (by simp) ?_,
          (claim_brokenSensorFallback ⟨false, 7⟩ 0.5 []).2.2 rfl (by norm_num),
          (claim_brokenSensorFallback ⟨true, 10⟩ 0 [0.5, 2.5]).1 rfl⟩
  intro x hx
  rw [List.eq_of_mem_replicate hx]
  norm_num

/-- C2: the event-triggered recording controller of `main_loop`: an idle
sample (variance at most the movement threshold) while not recording is only
pushed into the pre-roll ring and nothing is persisted; the first sample
with variance above the threshold while not recording persists the entire
pre-roll ring in chronological order followed by the triggering sample,
starts recording and sets the post-roll counter to `POST_ROLL_SAMPLES`; a
movement sample while recording persists the sample and resets the counter;
and once variance has dropped back, exactly `POST_ROLL_SAMPLES = 5` further
samples are persisted before recording stops (with fewer than 5 idle samples
the controller is still recording). -/
theorem claim_recordingController (mt : ℚ) (s : RecState) (x : Sample) :
    (¬ x.variance > mt → s.isRecording = false →
      recStep mt s x = { s with buffer := pushRing 5 s.buffer x })
    ∧ (x.variance > mt → s.isRecording = false →
      recStep mt s x = { s with isRecording := true, postRoll := POST_ROLL_SAMPLES,
                                stored := s.stored ++ s.buffer ++ [x] })
    ∧ (x.variance > mt → s.isRecording = true →
      recStep mt s x = { s with isRecording := true, postRoll := POST_ROLL_SAMPLES,
                                stored := s.stored ++ [x] })
    ∧ (∀ xs : List Sample, s.isRecording = true → s.postRoll = POST_ROLL_SAMPLES →
        xs.length = 5 → (∀ y ∈ xs, ¬ y.variance > mt) →
        recRun mt s xs = { s with stored := s.stored ++ xs, postRoll := 0,
                                  isRecording := false })
    ∧ (∀ xs : List Sample, s.isRecording = true → s.postRoll = POST_ROLL_SAMPLES →
        xs.length < 5 → (∀ y ∈ xs, ¬ y.variance > mt) →
        (recRun mt s xs).isRecording = true
        ∧ (recRun mt s xs).stored = s.stored ++ xs) := by
  refine ⟨?_, ?_, ?_, ?_, ?_⟩
  · intro h hr
    simp [recStep, h, hr]
  · intro h hr
    simp [recStep, h, hr]
  · intro h hr
    simp [recStep, h, hr]
  · intro xs hr hpr hxs hidle
    have h := recRun_postRoll mt xs s hr
      (by rw [hpr]; norm_num [POST_ROLL_SAMPLES])
      (by rw [hpr, hxs]; norm_num [POST_ROLL_SAMPLES]) hidle
    rw [h, hpr, hxs]
    norm_num [POST_ROLL_SAMPLES]
  · intro xs hr hpr hxs hidle
    have h := recRun_postRoll mt xs s hr
      (by rw [hpr]; norm_num [POST_ROLL_SAMPLES])
      (by rw [hpr]; norm_num [POST_ROLL_SAMPLES]; omega) hidle
    rw [h, hpr]
    refine ⟨?_, rfl⟩
    simp only [POST_ROLL_SAMPLES, decide_eq_true_eq]
    omega

/-- C2 witness with movement threshold 0.05: an idle sample is only buffered;
the trigger flushes the pre-roll ring then the triggering sample; 5 idle
samples after the trigger are persisted and recording stops, while 4 leave
the controller still recording. -/
theorem claim_recordingController_witness :
    recStep 0.05 ⟨[⟨2, 50, "A", 0.01⟩], false, 0, []⟩ ⟨2, 50, "A", 0.01⟩ =
      ⟨pushRing 5 [⟨2, 50, "A", 0.01⟩] ⟨2, 50, "A", 0.01⟩, false, 0, []⟩
    ∧ recStep 0.05 ⟨[⟨2, 50, "A", 0.01⟩], false, 0, []⟩ ⟨2.2, 60, "M", 0.1⟩ =
      ⟨[⟨2, 50, "A", 0.01⟩], true, 5, [⟨2, 50, "A", 0.01⟩, ⟨2.2, 60, "M", 0.1⟩]⟩
    ∧ recRun 0.05 ⟨[], true, 5, []⟩ (List.replicate 5 ⟨2, 50, "A", 0.01⟩) =
      ⟨[], false, 0, List.replicate 5 ⟨2, 50, "A", 0.01⟩⟩
    ∧ (recRun 0.05 ⟨[], true, 5, []⟩ (List.replicate 4 ⟨2, 50, "A", 0.01⟩)).isRecording = true := by
  have hidle : ∀ n, ∀ y ∈ List.replicate n (⟨2, 50, "A", 0.01⟩ : Sample),
      ¬ y.variance > (0.05 : ℚ) := by
    intro n y hy
    rw [List.eq_of_mem_replicate hy]
    norm_num
  refine ⟨(claim_recordingController 0.05 ⟨[⟨2, 50, "A", 0.01⟩], false, 0, []⟩
            ⟨2, 50, "A", 0.01⟩).1 (by norm_num) rfl,
          (claim_recordingController 0.05 ⟨[⟨2, 50, "A", 0.01⟩], false, 0, []⟩
            ⟨2.2, 60, "M", 0.1⟩).2.1 (by norm_num) rfl,
          (claim_recordingController 0.05 ⟨[], true, 5, []⟩
            ⟨2, 50, "A", 0.01⟩).2.2.2.1 (List.replicate 5 ⟨2, 50, "A", 0.01⟩)
            rfl rfl rfl (hidle 5),
          ((claim_recordingController 0.05 ⟨[], true, 5, []⟩
            ⟨2, 50, "A", 0.01⟩).2.2.2.2 (List.replicate 4 ⟨2, 50, "A", 0.01⟩)
            rfl rfl (by norm_num) (hidle 4)).1⟩

/-- C3: when the underlying insert fails, `store_reading` (with the queue
below capacity) appends the record to the in-memory overflow queue instead of
losing it and returns False; in particular three consecutive locked errors
exhaust the 3 retry attempts of `_execute_with_retry`; and a run of k
consecutive failing calls from a below-capacity state leaves exactly the k
records in the overflow queue, every call returning False, with durable
storage unchanged (so zero of those records are in durable storage). -/
theorem claim_storeReading_overflow (insertOp : Nat → Except DBErr Unit)
    (flushOk : Bool) (keep : Record → Bool) (s : DMState) (r : Record) :
    ((∃ e, executeWithRetry insertOp 3 = Except.error e) →
      s.queue.length < MAX_QUEUE_SIZE →
      storeReading insertOp flushOk keep s r =
        (false, { s with queue := s.queue ++ [r] }))
    ∧ ((insertOp 0 = Except.error DBErr.locked ∧
        insertOp 1 = Except.error DBErr.locked ∧
        insertOp 2 = Except.error DBErr.locked) →
      executeWithRetry insertOp 3 = Except.error DBErr.locked)
    ∧ (∀ items : List (Record × (Nat → Except DBErr Unit)),
        (∀ p ∈ items, ∃ e, executeWithRetry p.2 3 = Except.error e) →
        s.queue.length + items.length ≤ MAX_QUEUE_SIZE →
        storeRun flushOk keep s items =
          (List.replicate items.length false,
           { s with queue := s.queue ++ items.map Prod.fst })) := by
  refine ⟨?_, ?_, fun items hfail hcap => storeRun_failures flushOk keep items s hfail hcap⟩
  · intro ⟨e, he⟩ hq
    simp [storeReading, he, hq]
  · intro ⟨h0, h1, h2⟩
    simp [executeWithRetry, retryLoop, h0, h1, h2]

/-- C3 witness: from an empty state, two calls whose inserts always raise the
locked error return False twice and leave exactly those two records in the
overflow queue and nothing in durable storage. -/
theorem claim_storeReading_overflow_witness :
    storeReading (fun _ => Except.error DBErr.locked) true (fun _ => true)
        ⟨[], [], 0⟩ ⟨1, 50, "A", 0⟩ =
      (false, ⟨[], [⟨1, 50, "A", 0⟩], 0⟩)
    ∧ storeRun true (fun _ => true) ⟨[], [], 0⟩
        [(⟨1, 50, "A", 0⟩, fun _ => Except.error DBErr.locked),
         (⟨2, 60, "B", 0⟩, fun _ => Except.error DBErr.locked)] =
      ([false, false], ⟨[], [⟨1, 50, "A", 0⟩, ⟨2, 60, "B", 0⟩], 0⟩) := by
  have hfail : executeWithRetry (fun _ => Except.error DBErr.locked) 3 =
      Except.error DBErr.locked :=
    (claim_storeReading_overflow (fun _ => Except.error DBErr.locked) true
      (fun _ => true) ⟨[], [], 0⟩ ⟨1, 50, "A", 0⟩).2.1 ⟨rfl, rfl, rfl⟩
  constructor
  · exact (claim_storeReading_overflow (fun _ => Except.error DBErr.locked) true
      (fun _ => true) ⟨[], [], 0⟩ ⟨1, 50, "A", 0⟩).1 ⟨DBErr.locked, hfail⟩ (by decide)
  · refine (claim_storeReading_overflow (fun _ => Except.error DBErr.locked) true
      (fun _ => true) ⟨[], [], 0⟩ ⟨1, 50, "A", 0⟩).2.2 _ ?_ (by decide)
    intro p hp
    simp only [List.mem_cons, List.not_mem_nil, or_false] at hp
    rcases hp with hp | hp <;> subst hp <;> exact ⟨DBErr.locked, hfail⟩

/-- C10: the overflow queue never exceeds `MAX_QUEUE_SIZE = 1000` entries
under any `store_reading` call; at capacity a failing call drops the new
record entirely — queue and durable storage unchanged — and returns False. -/
theorem claim_queueBound (insertOp : Nat → Except DBErr Unit) (flushOk : Bool)
    (keep : Record → Bool) (s : DMState) (r : Record) :
    (s.queue.length ≤ MAX_QUEUE_SIZE →
      (storeReading insertOp flushOk keep s r).2.queue.length ≤ MAX_QUEUE_SIZE)
    ∧ (s.queue.length = MAX_QUEUE_SIZE →
      (∃ e, executeWithRetry insertOp 3 = Except.error e) →
      storeReading insertOp flushOk keep s r = (false, s)) := by
  constructor
  · intro hq
    simp only [storeReading]
    cases h : executeWithRetry insertOp 3 with
    | ok a =>
      simp only []
      split_ifs <;> simp_all
    | error e =>
      simp only []
      split_ifs with h1
      · simp [List.length_append]
        omega
      · simpa using hq
  · intro hq ⟨e, he⟩
    simp [storeReading, he, hq]

/-- C10 witness: with the queue at its capacity of 1000, a failing call
leaves the state untouched and the bound holds. -/
theorem claim_queueBound_witness :
    storeReading (fun _ => Except.error DBErr.locked) true (fun _ => true)
        ⟨[], List.replicate 1000 ⟨0, 0, "", 0⟩, 0⟩ ⟨1, 50, "A", 0⟩ =
      (false, ⟨[], List.replicate 1000 ⟨0, 0, "", 0⟩, 0⟩)
    ∧ (storeReading (fun _ => Except.error DBErr.locked) true (fun _ => true)
        ⟨[], List.replicate 1000 ⟨0, 0, "", 0⟩, 0⟩ ⟨1, 50, "A", 0⟩).2.queue.length ≤
        MAX_QUEUE_SIZE := by
  have hlen : (⟨[], List.replicate 1000 ⟨0, 0, "", 0⟩, 0⟩ : DMState).queue.length =
      MAX_QUEUE_SIZE := by
    show (List.replicate 1000 (⟨0, 0, "", 0⟩ : Record)).length = MAX_QUEUE_SIZE
    rw [List.length_replicate, MAX_QUEUE_SIZE]
  exact ⟨(claim_queueBound (fun _ => Except.error DBErr.locked) true (fun _ => true)
            ⟨[], List.replicate 1000 ⟨0, 0, "", 0⟩, 0⟩ ⟨1, 50, "A", 0⟩).2 hlen
            ⟨DBErr.locked, rfl⟩,
         (claim_queueBound (fun _ => Except.error DBErr.locked) true (fun _ => true)
            ⟨[], List.replicate 1000 ⟨0, 0, "", 0⟩, 0⟩ ⟨1, 50, "A", 0⟩).1
            (le_of_eq hlen)⟩

/-- C7 (code bug): on a database trace that `store_reading` itself produces
— a record queued on an insert failure is flushed by the next successful
call, between two direct inserts — `get_unsynced_readings` does not return
the unsynced readings oldest-first in insertion order: the flushed row
(id 2) carries a `'T'`-separated isoformat timestamp text that the BINARY
`ORDER BY timestamp` comparison places after every same-day
`CURRENT_TIMESTAMP` text (`'T'` is 0x54, `' '` is 0x20), so the query
returns ids [1, 3, 2] for the insertion order [1, 2, 3], and with
`limit = 2` the older flushed row is dropped in favour of the row inserted
after it. -/
theorem claim_getUnsyncedReadings :
    ReadingsDB.Reachable flushTraceDB
    ∧ flushTraceDB.rows.map Reading.id = [1, 2, 3]
    ∧ (∀ r ∈ flushTraceDB.rows, r.synced = false)
    ∧ (flushTraceDB.getUnsyncedReadings 100).map Reading.id = [1, 3, 2]
    ∧ (flushTraceDB.getUnsyncedReadings 100).map Reading.id ≠
        ((flushTraceDB.rows.filter fun r => r.synced = false).take 100).map Reading.id
    ∧ (flushTraceDB.getUnsyncedReadings 2).map Reading.id = [1, 3] := by
  refine ⟨ReadingsDB.Reachable.insert _ _ (ReadingsDB.Reachable.insert _ _
    (ReadingsDB.Reachable.insert _ _ ReadingsDB.Reachable.init)), ?_, ?_, ?_, ?_, ?_⟩
  · rfl
  · decide
  · decide
  · decide
  · decide
